import Mathlib

/-!
Verification of `lrm_paper_analyzer.py` (arXiv PDF downloader and image
extractor).  The Python source is shallowly embedded below: pure string
processing functions are translated directly; filesystem state is made
explicit (lists of directory and file paths); external effects (the network
download, the MinerU subprocess, the PIL/OpenCV image libraries) are
represented by explicit environment records whose fields stand for the
outcomes of those external calls, while every piece of control flow of the
Python program itself is translated faithfully.

Conventions:
* Python strings are Lean `String`s, manipulated through their `.data`
  character lists.  Python's `str.strip`, `str.split('\n')`, substring
  tests, `str.lower`, `str.endswith` are modelled by executable list
  functions below (ASCII fragment of Python's Unicode-aware behaviour).
* The two regexes `https?://arxiv\.org/abs/(?P<id>[\w.\-]+)` and
  `https?://arxiv\.org/pdf/(?P<id>[\w.\-]+)(?:\.pdf)?` used with `re.match`
  are modelled by `reMatchArxiv`: the scheme alternation is resolved by
  first trying the literal `https` and then `http` (equivalent to the
  regex's backtracking here, since after a successful `http` the next
  pattern character `:` differs from `s`), then the fixed tail, then a
  greedy nonempty capture of `[\w.\-]` characters.  `re.match` anchors at
  the start only, so trailing uncaptured characters are ignored, and the
  trailing optional `(?:\.pdf)?` group is redundant (the greedy class
  already contains `.pdf`'s characters), exactly as in the source.
-/

set_option autoImplicit false
set_option linter.unnecessarySeqFocus false

namespace PaperAnalyzer

/-- Python regex class `\w` (ASCII fragment): letters, digits, underscore. -/
def isWordChar (c : Char) : Bool := c.isAlphanum || c = '_'

/-- The character class `[\w.\-]` used by both arXiv URL regexes. -/
def isIdChar (c : Char) : Bool := isWordChar c || c = '.' || c = '-'

/-- Drop characters satisfying `p` from both ends of a list; this models
Python's `str.strip` family. -/
def dropAround (p : Char → Bool) (cs : List Char) : List Char :=
  ((cs.dropWhile p).reverse.dropWhile p).reverse

/-- Python `str.strip()` (whitespace from both ends). -/
def pyStrip (s : String) : String := String.mk (dropAround Char.isWhitespace s.data)

/-- Match a literal at the head of the input; on success return the rest. -/
def dropLit (lit cs : List Char) : Option (List Char) :=
  if cs.take lit.length = lit then some (cs.drop lit.length) else none

/-- The `https?` alternation at the start of both arXiv regexes. -/
def dropScheme (cs : List Char) : Option (List Char) :=
  match dropLit "https".data cs with
  | some rest => some rest
  | none => dropLit "http".data cs

/-- Python `str.endswith(suffix)` on character lists. -/
def listEndsWith (suf cs : List Char) : Bool :=
  decide (cs.reverse.take suf.length = suf.reverse)

/-- Model of `re.match` for the two patterns of the source (`seg` is `"abs"`
or `"pdf"`): returns the characters captured by the `id` group. -/
def reMatchArxiv (seg : String) (cs : List Char) : Option (List Char) :=
  match dropScheme cs with
  | none => none
  | some rest =>
    match dropLit ("://arxiv.org/" ++ seg ++ "/").data rest with
    | none => none
    | some rest2 =>
      let idc := rest2.takeWhile isIdChar
      if idc = [] then none else some idc

/-- `parse_arxiv_url` (source lines 21-51): strip the input, try the `abs`
pattern then the `pdf` pattern, and build the canonical download URL. -/
def parse_arxiv_url (arxivLink : String) : Option String :=
  let cs := dropAround Char.isWhitespace arxivLink.data
  match reMatchArxiv "abs" cs with
  | some idc => some ("https://arxiv.org/pdf/" ++ String.mk idc ++ ".pdf")
  | none =>
    match reMatchArxiv "pdf" cs with
    | some idc =>
      if listEndsWith ".pdf".data idc then
        some ("https://arxiv.org/pdf/" ++ String.mk idc)
      else
        some ("https://arxiv.org/pdf/" ++ String.mk idc ++ ".pdf")
    | none => none

/-- `extract_arxiv_id` (source lines 54-76): same two patterns, but on the
raw input (no `strip`), returning the id, with a trailing `.pdf` removed. -/
def extract_arxiv_id (arxivLink : String) : Option String :=
  let cs := arxivLink.data
  match reMatchArxiv "abs" cs with
  | some idc => some (String.mk idc)
  | none =>
    match reMatchArxiv "pdf" cs with
    | some idc =>
      if listEndsWith ".pdf".data idc then
        some (String.mk (idc.take (idc.length - 4)))
      else some (String.mk idc)
    | none => none

/-- Characters kept verbatim by `sanitize_filename`'s regex `[^\w\-\.]+`. -/
def isKeepChar (c : Char) : Bool := isWordChar c || c = '-' || c = '.'

/-- One pass of `re.sub(r"[^\w\-\.]+", "_", name)`: a maximal run of
non-kept characters becomes a single underscore.  The flag records whether
we are currently inside such a run (in which case further non-kept
characters are absorbed without emitting another underscore). -/
def squashAux : Bool → List Char → List Char
  | _, [] => []
  | inBad, c :: cs =>
    if isKeepChar c then c :: squashAux false cs
    else if inBad then squashAux true cs
    else '_' :: squashAux true cs

/-- `re.sub(r"[^\w\-\.]+", "_", name)`. -/
def squashBad (cs : List Char) : List Char := squashAux false cs

/-- The characters stripped by `.strip("._")`. -/
def isStripChar (c : Char) : Bool := c = '.' || c = '_'

/-- `sanitize_filename` (source lines 406-408):
`re.sub(r"[^\w\-\.]+", "_", name).strip("._")`. -/
def sanitize_filename (name : String) : String :=
  String.mk (dropAround isStripChar (squashBad name.data))

/-! ### Title inference (`extract_title_from_markdown`, source lines 236-276) -/

/-- Python `content.split('\n')` on character lists. -/
def splitOnChar (sep : Char) : List Char → List (List Char)
  | [] => [[]]
  | c :: cs =>
    match splitOnChar sep cs with
    | [] => [[c]]
    | r :: rs => if c = sep then [] :: r :: rs else (c :: r) :: rs

/-- Python substring test `needle in hay` on character lists. -/
def hasSub (needle : List Char) : List Char → Bool
  | [] => decide (needle = [])
  | c :: cs => decide ((c :: cs).take needle.length = needle) || hasSub needle cs

/-- Python `s.lower()` (ASCII fragment). -/
def pyLower (cs : List Char) : List Char := cs.map Char.toLower

/-- The stop list of method 1: generic section words that disqualify a
level-1 heading. -/
def skipWords1 : List (List Char) :=
  ["abstract".data, "introduction".data, "content".data, "table".data, "figure".data]

/-- The stop list of method 3 (bold spans). -/
def skipWords3 : List (List Char) := ["abstract".data, "figure".data, "table".data]

/-- One line of method 1 of `extract_title_from_markdown`: strip the line;
if it is a level-1 heading (`'# '` plus some text), take its stripped text
and accept it when no stop word occurs in its lowercase form and its length
is strictly between 10 and 200. -/
def method1Line (raw : List Char) : Option (List Char) :=
  let line := dropAround Char.isWhitespace raw
  if line.take 2 = ['#', ' '] ∧ line.length > 2 then
    let title := dropAround Char.isWhitespace (line.drop 2)
    if ¬ (skipWords1.any fun w => hasSub w (pyLower title)) then
      if title.length > 10 ∧ title.length < 200 then some title else none
    else none
  else none

/-- Method 1 of `extract_title_from_markdown`: scan the first 50 lines for
a level-1 heading of reasonable length avoiding the stop list. -/
def titleMethod1 (lines : List (List Char)) : Option (List Char) :=
  (lines.take 50).findSome? method1Line

/-- Method 2: a plain line in the first 20 lines that looks like a title. -/
def titleMethod2 (lines : List (List Char)) : Option (List Char) :=
  (lines.take 20).findSome? fun raw =>
    let line := dropAround Char.isWhitespace raw
    if line ≠ [] ∧ line.take 1 ≠ ['#'] ∧ line.take 1 ≠ ['*'] then
      if 20 < line.length ∧ line.length < 200 ∧
          line.any Char.isUpper ∧
          ¬ (line.take 20).contains ':' ∧
          line.countP (fun c => c = '.') < 3 then
        some line
      else none
    else none

/-- Scan for the lazily-matched closing `**` of a bold span: accumulate
characters until the first `**`; `.` in the regex does not match a newline,
so a newline aborts this match attempt. -/
def findBoldClose (acc : List Char) : List Char → Option (List Char × List Char)
  | '*' :: '*' :: rest => some (acc.reverse, rest)
  | c :: rest => if c = '\n' then none else findBoldClose (c :: acc) rest
  | [] => none

/-- Fuelled scan implementing `re.findall(r"\*\*(.*?)\*\*", text)`: at each
position try to open a bold span; after a successful match resume after the
closing `**`, otherwise advance one character. -/
def findBoldFuel : Nat → List Char → List (List Char)
  | 0, _ => []
  | fuel + 1, '*' :: '*' :: rest =>
    match findBoldClose [] rest with
    | some (cap, rest2) => cap :: findBoldFuel fuel rest2
    | none => findBoldFuel fuel ('*' :: rest)
  | fuel + 1, _ :: rest => findBoldFuel fuel rest
  | _ + 1, [] => []

/-- `re.findall(r"\*\*(.*?)\*\*", text)`; each scan step consumes at least
one character, so `length + 1` fuel is enough. -/
def findBold (cs : List Char) : List (List Char) := findBoldFuel (cs.length + 1) cs

/-- Method 3: the first bold span in the first 2000 characters of the
transcript with acceptable length and no stop word. -/
def titleMethod3 (content : List Char) : Option (List Char) :=
  (findBold (content.take 2000)).findSome? fun m =>
    if 20 < m.length ∧ m.length < 200 ∧
        ¬ (skipWords3.any fun w => hasSub w (pyLower m)) then
      some m
    else none

/-- `extract_title_from_markdown` (source lines 236-276): three ordered
heuristics, first success wins, empty string if all fail. -/
def extract_title_from_markdown (content : String) : String :=
  let lines := splitOnChar '\n' content.data
  match titleMethod1 lines with
  | some t => String.mk t
  | none =>
    match titleMethod2 lines with
    | some t => String.mk t
    | none =>
      match titleMethod3 content.data with
      | some t => String.mk t
      | none => ""

/-! ### Image enhancement (`enhance_image_quality`, source lines 279-344)

The PIL/OpenCV image objects are modelled by their width, height and mode;
the outcomes of the external library calls (imports, `Image.open`, the
OpenCV super-resolution helper, `resize`, `save`) are fields of `ImgEnv`.
Crucially, the name `np` (numpy) is bound **only** when the `cv2` import
branch succeeds (source lines 291-298), so in the no-cv2 branch the
expression `np.sqrt(...)` at source line 325 raises `NameError`; the model
materialises this with `npDefined := env.hasCv2`. -/

/-- `os.path.splitext(s)[0]`: the name without its final extension; leading
dots do not start an extension. -/
def splitextBase (s : String) : String :=
  let cs := s.data
  let lead := cs.takeWhile (fun c => c = '.')
  let rest := cs.dropWhile (fun c => c = '.')
  if rest.contains '.' then
    let r := rest.reverse
    let ext := r.takeWhile (fun c => c ≠ '.')
    String.mk (lead ++ (r.drop (ext.length + 1)).reverse)
  else s

/-- A PIL image as far as the analyzer's control flow can observe it. -/
structure Img where
  width : Nat
  height : Nat
  mode : String
deriving DecidableEq

/-- Outcomes of the external image-library calls made by
`enhance_image_quality` for one source image. -/
structure ImgEnv where
  /-- the `from PIL import ...` imports succeed (both branches need PIL) -/
  hasPIL : Bool
  /-- `import cv2` and `import numpy as np` succeed -/
  hasCv2 : Bool
  /-- result of `Image.open`, `none` meaning it raised (malformed file) -/
  openResult : Option Img
  /-- result of `apply_cv2_super_resolution` (that helper catches its own
  exceptions and returns `None` on any internal failure) -/
  srResult : Option Img
  /-- `img.resize` raises -/
  resizeFails : Bool
  /-- `img.save` raises -/
  saveFails : Bool
  /-- the PNG bytes `img.save` writes for a given image -/
  encodePng : Img → List Nat

/-- `apply_image_enhancement` (source lines 377-403): sharpness 1.3,
contrast 1.15, color 1.05, SMOOTH filter.  These PIL operations transform
pixel content only — width, height and mode are preserved — and the
function catches its own exceptions, returning the image unchanged, so on
the observable fields of `Img` it is the identity. -/
def apply_image_enhancement (img : Img) : Img := img

/-- The body of `enhance_image_quality`'s outer `try:` (source lines
290-338).  `Except` models a raised exception.  Python's
`int(np.sqrt(b / n))` (true division then float sqrt then truncation) is
`Nat.sqrt (b / n)` on naturals, since for nonnegative reals
`⌊√x⌋ = Nat.sqrt ⌊x⌋` (proved as `natFloorSqrtDiv` below). -/
def enhanceBody (env : ImgEnv) (dstPath : String) : Except String (String × List Nat) :=
  if ¬ env.hasPIL then .error "ImportError: PIL" else
  let npDefined := env.hasCv2
  match env.openResult with
  | none => .error "Image.open raised"
  | some img0 =>
    let img := if img0.mode ≠ "RGB" then { img0 with mode := "RGB" } else img0
    let width := img.width
    let height := img.height
    let originalSize := width * height
    let step1 : Except String Img :=
      if originalSize < 1000000 then
        if env.hasCv2 then
          match env.srResult with
          | some enhanced => .ok enhanced
          | none =>
            if ¬ npDefined then .error "NameError: name np is not defined" else
            let scale := min 4 (Nat.sqrt (2000000 / originalSize))
            if env.resizeFails then .error "resize raised"
            else .ok { img with width := width * scale, height := height * scale }
        else
          if ¬ npDefined then .error "NameError: name np is not defined" else
          let scale := min 3 (Nat.sqrt (1500000 / originalSize))
          if env.resizeFails then .error "resize raised"
          else .ok { img with width := width * scale, height := height * scale }
      else .ok img
    match step1 with
    | .error e => .error e
    | .ok img1 =>
      let img2 := apply_image_enhancement img1
      if env.saveFails then .error "save raised"
      else .ok (splitextBase dstPath ++ "_enhanced.png", env.encodePng img2)

/-- `enhance_image_quality` (source lines 279-344): on any exception in the
body, fall back to `shutil.copy2(src_path, dst_path)` — a byte-for-byte
copy — and return `dst_path`.  The result is the path of the produced file
together with the bytes written there. -/
def enhance_image_quality (env : ImgEnv) (srcBytes : List Nat)
    (_srcPath dstPath : String) : String × List Nat :=
  match enhanceBody env dstPath with
  | .ok r => r
  | .error _ => (dstPath, srcBytes)

/-! ### The image copying loop (`copy_images_to_output`, source lines 411-459) -/

/-- One candidate file of the source images directory, together with the
outcomes of the external calls made while processing it. -/
structure ImgFile where
  name : String
  /-- `os.path.getsize(src_path)` -/
  size : Nat
  /-- `os.path.getsize` raises for this file -/
  sizeFails : Bool
  /-- the enhancement/copy/second-`getsize` sequence raises for this file
  (note `enhance_image_quality` itself catches most failures; an exception
  escapes it only if even the fallback copy raises) -/
  enhanceFails : Bool

/-- Extension filter of the loop:
`image_file.lower().endswith(('.png', '.jpg', '.jpeg', '.gif', '.svg'))`. -/
def hasImageExt (name : String) : Bool :=
  ["png", "jpg", "jpeg", "gif", "svg"].any fun e =>
    listEndsWith ("." ++ e).data (pyLower name.data)

/-- What happens to one candidate inside the loop's `try:` block. -/
inductive ItemStep
  /-- an exception reached the per-item `except` handler -/
  | raised
  /-- skipped by the `continue` of the 5000-byte filter -/
  | filtered
  /-- an output file was produced and `copied_count` incremented -/
  | produced
deriving DecidableEq

/-- The `try:` block of the loop body for a single candidate. -/
def processImage (f : ImgFile) : ItemStep :=
  if f.sizeFails then .raised
  else if f.size < 5000 then .filtered
  else if f.enhanceFails then .raised
  else .produced

/-- The `for image_file in os.listdir(...)` loop: the `except` clause logs
and falls through to the next candidate. -/
def copyLoop : List ImgFile → Nat → Nat
  | [], n => n
  | f :: fs, n =>
    if hasImageExt f.name then
      match processImage f with
      | .produced => copyLoop fs (n + 1)
      | .filtered => copyLoop fs n
      | .raised => copyLoop fs n
    else copyLoop fs n

/-- `copy_images_to_output` (source lines 411-459): create the per-paper
output directory, return `(0, dir)` if the source directory is missing,
otherwise run the loop and return the count with the directory. -/
def copy_images_to_output (files : List ImgFile) (outputDir paperTitle : String)
    (srcDirExists : Bool) : Nat × String :=
  let paperOutputDir := outputDir ++ "/" ++ paperTitle
  if ¬ srcDirExists then (0, paperOutputDir)
  else (copyLoop files 0, paperOutputDir)

/-- A candidate that passes both filters and whose processing succeeds. -/
def successfulItem (f : ImgFile) : Bool :=
  hasImageExt f.name && !f.sizeFails && !(decide (f.size < 5000)) && !f.enhanceFails

example :
    copy_images_to_output
      [⟨"a.png", 6000, false, false⟩, ⟨"b.jpg", 4096, false, false⟩,
       ⟨"c.svg", 9999, false, true⟩, ⟨"d.txt", 9999, false, false⟩,
       ⟨"e.GIF", 5000, false, false⟩] "out" "Title" true = (2, "out/Title") := by
  decide

example : splitextBase "2412.15289.pdf" = "2412.15289" := by decide

example : splitextBase ".hidden" = ".hidden" := by decide

example :
    enhance_image_quality
      ⟨true, false, some ⟨100, 100, "RGB"⟩, none, false, false, fun _ => [7]⟩
      [1, 2, 3] "s.png" "d.png" = ("d.png", [1, 2, 3]) := by decide

example :
    enhance_image_quality
      ⟨true, true, some ⟨100, 100, "RGB"⟩, none, false, false, fun _ => [7]⟩
      [1, 2, 3] "s.png" "d.png" = ("d_enhanced.png", [7]) := by decide

/-! ### Filesystem model and `extract_images_with_mineru` (source lines 95-233)

Paths are lists of components.  `FS.dirs` lists the existing directories in
`os.walk` top-down enumeration order; `FS.files` maps existing files to
their text content (only markdown content is ever read).  The `fs` given to
`extract_images_with_mineru` is the state as left by the external tool
invocation: the tool's output tree is an arbitrary `fs`, not modelled. -/

/-- A filesystem path, as a list of components. -/
abbrev FPath := List String

/-- Directories (in walk order) and text files of the working tree. -/
structure FS where
  dirs : List FPath
  files : List (FPath × String)
deriving DecidableEq

/-- `os.path.exists` for directories. -/
def pathExists (fs : FS) (p : FPath) : Bool := fs.dirs.contains p

/-- `os.path.exists` followed by `open(...).read()` for text files. -/
def readFile (fs : FS) (p : FPath) : Option String :=
  (fs.files.find? (fun q => q.1 = p)).map Prod.snd

/-- `os.makedirs(p, exist_ok=True)`. -/
def mkdirFS (fs : FS) (p : FPath) : FS :=
  if fs.dirs.contains p then fs else { fs with dirs := fs.dirs ++ [p] }

/-- `root` is a (possibly improper) ancestor of `p`. -/
def pathUnder : FPath → FPath → Bool
  | [], _ => true
  | _, [] => false
  | a :: as, b :: bs => a == b && pathUnder as bs

/-- The last component of a path (its basename). -/
def lastComponent (p : FPath) : String := p.getLastD ""

/-- The files lying strictly at or below directory `d`. -/
def filesUnder (fs : FS) (d : FPath) : List (FPath × String) :=
  fs.files.filter fun q => pathUnder d q.1

/-- The `os.walk` search of source lines 160-165: visit the directories
below `root` in walk order and return the first `<dir>/images` whose
parent `<dir>` lists an `images` entry among its subdirectories. -/
def findImagesWalk (fs : FS) (root : FPath) : Option FPath :=
  fs.dirs.findSome? fun d =>
    if pathUnder root d ∧ fs.dirs.contains (d ++ ["images"]) then
      some (d ++ ["images"])
    else none

/-- `extract_title_from_mineru_output` (source lines 187-233): try the four
conventional markdown locations, then every `.md` file found by walking the
tree; for the first one that exists and yields a nonempty stripped title,
return the sanitized title, otherwise fall back to the PDF name.  (When the
title is empty the source's dead `print(... {e})` raises `NameError`, which
the `except` clause absorbs — so the loop just continues, as modelled.) -/
def extract_title_from_mineru_output (fs : FS) (mineruOutput : FPath)
    (pdfName : String) : String :=
  let possible : List FPath := [
    mineruOutput ++ [pdfName, "auto", pdfName ++ ".md"],
    mineruOutput ++ [pdfName, pdfName ++ ".md"],
    mineruOutput ++ ["auto", pdfName ++ ".md"],
    mineruOutput ++ [pdfName ++ ".md"]]
  let walked := fs.files.filterMap fun q =>
    if pathUnder mineruOutput q.1 ∧ listEndsWith ".md".data (lastComponent q.1).data then
      some q.1
    else none
  let found := (possible ++ walked).findSome? fun p =>
    match readFile fs p with
    | none => none
    | some content =>
      let title := extract_title_from_markdown content
      if pyStrip title ≠ "" then some (sanitize_filename (pyStrip title)) else none
  match found with
  | some t => t
  | none => pdfName

/-- Outcome of locating and invoking the external MinerU binary. -/
structure MineruEnv where
  /-- the `mineru` binary can be found (else `FileNotFoundError`) -/
  available : Bool
  /-- the subprocess exits with status 0 (else `CalledProcessError`) -/
  exitOk : Bool

/-- `extract_images_with_mineru` (source lines 95-184): create the tool
output directory, fail fatally if the tool is missing or exits nonzero,
then locate the images directory via the four candidate paths, then the
recursive walk, and finally synthesize an empty `<output_dir>/images`;
returns the images directory, the paper title and the updated filesystem. -/
def extract_images_with_mineru (menv : MineruEnv) (fs : FS) (pdfPath : FPath)
    (outputDir : FPath) : Except String (FPath × String × FS) :=
  let mineruOutput := outputDir ++ ["mineru_output"]
  let fs1 := mkdirFS fs mineruOutput
  if ¬ menv.available then .error "mineru CLI not found" else
  if ¬ menv.exitOk then .error "mineru subprocess failed" else
  let pdfName := splitextBase (lastComponent pdfPath)
  let possiblePaths : List FPath := [
    mineruOutput ++ [pdfName, "auto", "images"],
    mineruOutput ++ [pdfName, "images"],
    mineruOutput ++ ["auto", "images"],
    mineruOutput ++ ["images"]]
  let imagesDir? :=
    match possiblePaths.find? (fun p => pathExists fs1 p) with
    | some p => some p
    | none => findImagesWalk fs1 mineruOutput
  match imagesDir? with
  | some imagesDir =>
    let paperTitle := extract_title_from_mineru_output fs1 mineruOutput pdfName
    .ok (imagesDir, paperTitle, fs1)
  | none =>
    let imagesDir := outputDir ++ ["images"]
    .ok (imagesDir, pdfName, mkdirFS fs1 imagesDir)

/-! ### End-to-end driver (`process_arxiv_paper`, source lines 465-542)

The world tracks which directory and file paths exist (as joined strings);
external results (download, MinerU, the extraction outcome, the per-image
outcomes) are fields of `PEnv`.  The effects of `extract_images_with_mineru`
and `copy_images_to_output` are inlined at the points the driver calls
them. -/

/-- Existing directory and file paths, as joined path strings. -/
structure PWorld where
  dirs : List String
  files : List String
deriving DecidableEq

/-- `os.makedirs(p, exist_ok=True)`. -/
def mkdirP (w : PWorld) (p : String) : PWorld :=
  if w.dirs.contains p then w else { w with dirs := w.dirs ++ [p] }

/-- Create (or overwrite) a file at `p`. -/
def addFileP (w : PWorld) (p : String) : PWorld :=
  if w.files.contains p then w else { w with files := w.files ++ [p] }

/-- `p` is `d` itself or lies below directory `d`. -/
def underDirStr (d p : String) : Bool :=
  p == d || decide (p.data.take (d.data.length + 1) = d.data ++ ['/'])

/-- `shutil.rmtree(d)`. -/
def rmtreeP (w : PWorld) (d : String) : PWorld :=
  { dirs := w.dirs.filter fun p => ¬ underDirStr d p,
    files := w.files.filter fun p => ¬ underDirStr d p }

/-- `os.path.basename` on joined path strings. -/
def basenameStr (p : String) : String :=
  String.mk ((splitOnChar '/' p.data).getLastD [])

/-- Results of the external calls made by one end-to-end run. -/
structure PEnv where
  /-- `download_file` succeeds (raises otherwise) -/
  downloadOk : Bool
  /-- the `mineru` binary can be found -/
  mineruAvailable : Bool
  /-- the MinerU subprocess exits with status 0 -/
  mineruExitOk : Bool
  /-- title returned by `extract_images_with_mineru` (its computation is
  modelled in detail over `FS` above; here the outcome is summarised) -/
  extractedTitle : String
  /-- the candidates listed in the images directory it returned -/
  imageFiles : List ImgFile
  /-- that directory exists when `copy_images_to_output` looks at it -/
  srcImagesDirExists : Bool
  /-- `shutil.rmtree` of the temporary tree succeeds -/
  cleanupOk : Bool

/-- `process_arxiv_paper` (source lines 465-542): resolve the reference,
create `output` and `.tmp`, download, extract, choose the folder title,
copy images, copy the PDF, clean up; any exception yields `False`.  The
per-image output files written by the copy loop are summarised by its
count. -/
def process_arxiv_paper (env : PEnv) (w : PWorld) (arxivUrl outputDir : String) :
    Bool × PWorld :=
  match parse_arxiv_url arxivUrl with
  | none => (false, w)
  | some _pdfUrl =>
    match extract_arxiv_id arxivUrl with
    | none => (false, w)
    | some paperId =>
      let w1 := mkdirP w outputDir
      let tmpDir := outputDir ++ "/.tmp"
      let w2 := mkdirP w1 tmpDir
      let safeId := sanitize_filename paperId
      let pdfPath := tmpDir ++ "/" ++ safeId ++ ".pdf"
      if ¬ env.downloadOk then (false, w2) else
      let w3 := addFileP w2 pdfPath
      let mineruOutput := tmpDir ++ "/mineru_output"
      let w4 := mkdirP w3 mineruOutput
      if ¬ env.mineruAvailable then (false, w4) else
      if ¬ env.mineruExitOk then (false, w4) else
      let pdfName := splitextBase (basenameStr pdfPath)
      let paperTitle :=
        if env.extractedTitle = "" ∨ env.extractedTitle = pdfName then safeId
        else env.extractedTitle
      let copied := copy_images_to_output env.imageFiles outputDir paperTitle
        env.srcImagesDirExists
      let paperOutputDir := copied.2
      let w5 := mkdirP w4 paperOutputDir
      let outPdfPath := paperOutputDir ++ "/" ++ sanitize_filename paperTitle ++ ".pdf"
      let w6 := addFileP w5 outPdfPath
      let w7 := if env.cleanupOk then rmtreeP w6 tmpDir else w6
      (true, w7)

example :
    process_arxiv_paper ⟨true, false, true, "", [], true, true⟩ ⟨[], []⟩
      "https://arxiv.org/abs/2412.15289" "output" =
    (false, ⟨["output", "output/.tmp", "output/.tmp/mineru_output"],
             ["output/.tmp/2412.15289.pdf"]⟩) := by decide

example :
    process_arxiv_paper ⟨true, true, true, "A Title", [⟨"a.png", 6000, false, false⟩],
        true, true⟩ ⟨[], []⟩ "https://arxiv.org/abs/2412.15289" "output" =
    (true, ⟨["output", "output/A Title"],
            ["output/A Title/A_Title.pdf"]⟩) := by decide

example :
    extract_images_with_mineru ⟨true, true⟩ ⟨[], []⟩ ["t", "x.pdf"] ["t"] =
    .ok (["t", "images"], "x",
         ⟨[["t", "mineru_output"], ["t", "images"]], []⟩) := by rfl

example : extract_title_from_markdown "# A Study of Widget Dynamics\nbody" =
    "A Study of Widget Dynamics" := by decide

example : extract_title_from_markdown "# Abstract of things here\nSome Long Titlecase Line Here Without Colon" =
    "Some Long Titlecase Line Here Without Colon" := by decide

example : extract_title_from_markdown "x\n**A Bold Span Title Of Decent Length**" =
    "A Bold Span Title Of Decent Length" := by decide

example : extract_title_from_markdown "# 0123456789" = "" := by decide

example : findBold "**a**b**c**".data = ["a".data, "c".data] := by decide

example : findBold "***a**".data = ["*a".data] := by decide

example : findBold "**a\nb** and **a real one**".data = [" and ".data] := by decide

example : parse_arxiv_url "https://arxiv.org/abs/2412.15289" =
    some "https://arxiv.org/pdf/2412.15289.pdf" := by decide

example : parse_arxiv_url "https://arxiv.org/pdf/2412.15289.pdf" =
    some "https://arxiv.org/pdf/2412.15289.pdf" := by decide

example : extract_arxiv_id "https://arxiv.org/pdf/2412.15289.pdf" =
    some "2412.15289" := by decide

example : extract_arxiv_id " https://arxiv.org/abs/2412.15289" = none := by decide

example : extract_arxiv_id "https://arxiv.org/abs/2412.15289 " =
    some "2412.15289" := by decide

example : sanitize_filename "  A Paper: Title!  " = "A_Paper_Title" := by decide

example : sanitize_filename "..a.b__" = "a.b" := by decide

/-! ## Helper lemmas -/

theorem dropWhile_of_all_neg {α : Type} {p : α → Bool} :
    ∀ {l : List α}, (∀ c ∈ l, p c = false) → l.dropWhile p = l
  | [], _ => rfl
  | c :: cs, h => by
    have hc : p c = false := h c (List.mem_cons_self c cs)
    rw [List.dropWhile_cons_of_neg (by simp [hc])]

theorem takeWhile_of_all_pos {α : Type} {p : α → Bool} :
    ∀ {l : List α}, (∀ c ∈ l, p c = true) → l.takeWhile p = l
  | [], _ => rfl
  | c :: cs, h => by
    have hc : p c = true := h c (List.mem_cons_self c cs)
    rw [List.takeWhile_cons_of_pos hc,
      takeWhile_of_all_pos fun d hd => h d (List.mem_cons_of_mem c hd)]

theorem dropAround_of_all_neg {p : Char → Bool} {cs : List Char}
    (h : ∀ c ∈ cs, p c = false) : dropAround p cs = cs := by
  unfold dropAround
  rw [dropWhile_of_all_neg h,
    dropWhile_of_all_neg fun c hc => h c (List.mem_reverse.mp hc),
    List.reverse_reverse]

theorem dropWhile_dropWhile {α : Type} {p : α → Bool} :
    ∀ (l : List α), (l.dropWhile p).dropWhile p = l.dropWhile p
  | [] => rfl
  | c :: cs => by
    by_cases h : p c
    · rw [List.dropWhile_cons_of_pos h]; exact dropWhile_dropWhile cs
    · rw [List.dropWhile_cons_of_neg h, List.dropWhile_cons_of_neg h]

theorem dropWhile_head_false {α : Type} {p : α → Bool} :
    ∀ {l : List α} {c : α} {t : List α}, l.dropWhile p = c :: t → p c = false
  | [], _, _, h => by simp at h
  | a :: as, c, t, h => by
    by_cases ha : p a
    · rw [List.dropWhile_cons_of_pos ha] at h; exact dropWhile_head_false h
    · rw [List.dropWhile_cons_of_neg ha] at h
      obtain ⟨rfl, -⟩ := List.cons.inj h
      simpa using ha

theorem dropAround_back (p : Char → Bool) (cs : List Char) :
    (dropAround p cs).reverse.dropWhile p = (dropAround p cs).reverse := by
  unfold dropAround
  rw [List.reverse_reverse]
  exact dropWhile_dropWhile _

theorem dropAround_front (p : Char → Bool) (cs : List Char) :
    (dropAround p cs).dropWhile p = dropAround p cs := by
  have hsuf : (cs.dropWhile p).reverse.dropWhile p <:+ (cs.dropWhile p).reverse :=
    List.dropWhile_suffix p
  have hpre : dropAround p cs <+: cs.dropWhile p := by
    have := List.reverse_prefix.mpr hsuf
    rwa [List.reverse_reverse] at this
  rcases hr : dropAround p cs with - | ⟨c, t⟩
  · rfl
  · obtain ⟨w, hw⟩ := hpre
    rw [hr] at hw
    have hc : p c = false := dropWhile_head_false (l := cs) hw.symm
    exact List.dropWhile_cons_of_neg (by simp [hc])

theorem dropAround_dropAround (p : Char → Bool) (cs : List Char) :
    dropAround p (dropAround p cs) = dropAround p cs := by
  conv_lhs => rw [dropAround]
  rw [dropAround_front, dropAround_back, List.reverse_reverse]

theorem mem_of_mem_dropAround {p : Char → Bool} {cs : List Char} {c : Char}
    (h : c ∈ dropAround p cs) : c ∈ cs := by
  unfold dropAround at h
  have h1 : c ∈ (cs.dropWhile p).reverse.dropWhile p := List.mem_reverse.mp h
  have h2 : c ∈ (cs.dropWhile p).reverse := (List.dropWhile_suffix p).sublist.subset h1
  exact (List.dropWhile_suffix p).sublist.subset (List.mem_reverse.mp h2)

theorem mem_dropWhile_of_neg {α : Type} {p : α → Bool} {a : α} {l : List α}
    (ha : a ∈ l) (hpa : p a = false) : a ∈ l.dropWhile p := by
  have hsplit := List.takeWhile_append_dropWhile (p := p) (l := l)
  rcases List.mem_append.mp (hsplit ▸ ha) with h | h
  · exact absurd (List.mem_takeWhile_imp h) (by simp [hpa])
  · exact h

theorem strData_append (s t : String) : (s ++ t).data = s.data ++ t.data := rfl

theorem strEq_of_data {s t : String} (h : s.data = t.data) : s = t := by
  cases s; cases t; exact congrArg String.mk h

theorem strMk_ne_empty {l : List Char} (h : l ≠ []) : String.mk l ≠ "" := by
  intro he
  exact h (congrArg String.data he)

/-! ## Lemmas about `sanitize_filename` -/

theorem squashAux_keep :
    ∀ (b : Bool) (cs : List Char), ∀ c ∈ squashAux b cs, isKeepChar c = true
  | _, [] => by intro c hc; simp [squashAux] at hc
  | b, a :: cs => by
    intro c hc
    by_cases ha : isKeepChar a
    · rw [squashAux, if_pos ha] at hc
      rcases List.mem_cons.mp hc with rfl | hc
      · exact ha
      · exact squashAux_keep false cs c hc
    · rw [squashAux, if_neg ha] at hc
      rcases b with - | -
      · rw [if_neg (by simp)] at hc
        rcases List.mem_cons.mp hc with rfl | hc
        · decide
        · exact squashAux_keep true cs c hc
      · rw [if_pos rfl] at hc
        exact squashAux_keep true cs c hc

theorem squashAux_of_all_keep :
    ∀ (b : Bool) {cs : List Char}, (∀ c ∈ cs, isKeepChar c = true) → squashAux b cs = cs
  | _, [], _ => rfl
  | b, a :: cs, h => by
    rw [squashAux, if_pos (h a (List.mem_cons_self a cs)),
      squashAux_of_all_keep false fun d hd => h d (List.mem_cons_of_mem a hd)]

theorem mem_squashAux_of_keep :
    ∀ (b : Bool) {cs : List Char} {a : Char},
      a ∈ cs → isKeepChar a = true → a ∈ squashAux b cs
  | _, [], _, ha, _ => absurd ha (List.not_mem_nil _)
  | b, c :: cs, a, ha, hka => by
    by_cases hc : isKeepChar c
    · rw [squashAux, if_pos hc]
      rcases List.mem_cons.mp ha with rfl | ha
      · exact List.mem_cons_self a _
      · exact List.mem_cons_of_mem c (mem_squashAux_of_keep false ha hka)
    · have ha' : a ∈ cs := by
        rcases List.mem_cons.mp ha with rfl | ha
        · exact absurd hka hc
        · exact ha
      rw [squashAux, if_neg hc]
      rcases b with - | -
      · rw [if_neg (by simp)]
        exact List.mem_cons_of_mem '_' (mem_squashAux_of_keep true ha' hka)
      · rw [if_pos rfl]
        exact mem_squashAux_of_keep true ha' hka

theorem isKeepChar_of_isAlphanum {a : Char} (h : a.isAlphanum = true) :
    isKeepChar a = true := by
  simp [isKeepChar, isWordChar, h]

theorem isStripChar_of_isAlphanum {a : Char} (h : a.isAlphanum = true) :
    isStripChar a = false := by
  unfold isStripChar
  by_cases h1 : a = '.'
  · subst h1; exact absurd h (by decide)
  · by_cases h2 : a = '_'
    · subst h2; exact absurd h (by decide)
    · simp [h1, h2]

/-- Claim C8: `sanitize_filename` is idempotent, and any input containing at
least one alphanumeric character sanitizes to a nonempty string. -/
theorem sanitize_filename_idem_nonempty (x y : String) (a : Char)
    (ha : a ∈ y.data) (haa : a.isAlphanum = true) :
    sanitize_filename (sanitize_filename x) = sanitize_filename x ∧
      sanitize_filename y ≠ "" := by
  constructor
  · have hkeep : ∀ c ∈ dropAround isStripChar (squashBad x.data), isKeepChar c = true :=
      fun c hc => squashAux_keep false x.data c (mem_of_mem_dropAround hc)
    show String.mk (dropAround isStripChar
      (squashAux false (dropAround isStripChar (squashBad x.data)))) = _
    rw [squashAux_of_all_keep false hkeep, dropAround_dropAround]
    rfl
  · apply strMk_ne_empty
    intro hnil
    have hmem : a ∈ squashBad y.data :=
      mem_squashAux_of_keep false ha (isKeepChar_of_isAlphanum haa)
    have hstrip : isStripChar a = false := isStripChar_of_isAlphanum haa
    have h1 : a ∈ (squashBad y.data).dropWhile isStripChar :=
      mem_dropWhile_of_neg hmem hstrip
    unfold dropAround at hnil
    have h2 : ((squashBad y.data).dropWhile isStripChar).reverse.dropWhile isStripChar = [] := by
      have := congrArg List.reverse hnil
      rwa [List.reverse_reverse, List.reverse_nil] at this
    have h3 := (List.dropWhile_eq_nil_iff).mp h2 a (List.mem_reverse.mpr h1)
    rw [hstrip] at h3
    exact Bool.noConfusion h3

/-- Witness for C8 at concrete inputs. -/
theorem sanitize_filename_idem_nonempty_witness :
    sanitize_filename (sanitize_filename "  A Paper: Title!  ") =
        sanitize_filename "  A Paper: Title!  " ∧
      sanitize_filename "a!" ≠ "" :=
  sanitize_filename_idem_nonempty "  A Paper: Title!  " "a!" 'a'
    (by decide) (by decide)

/-! ## Lemmas about the arXiv URL matchers -/

theorem dropLit_append (lit rest : List Char) : dropLit lit (lit ++ rest) = some rest := by
  unfold dropLit
  rw [List.take_left, if_pos rfl, List.drop_left]

theorem dropScheme_https (rest : List Char) :
    dropScheme ("https".data ++ rest) = some rest := by
  unfold dropScheme
  rw [dropLit_append]

theorem reMatchArxiv_abs_of_id (idc : List Char) (hne : idc ≠ [])
    (hid : ∀ c ∈ idc, isIdChar c = true) :
    reMatchArxiv "abs" ("https://arxiv.org/abs/".data ++ idc) = some idc := by
  have hsplit : "https://arxiv.org/abs/".data =
      "https".data ++ "://arxiv.org/abs/".data := by decide
  have htail : ("://arxiv.org/" ++ "abs" ++ "/").data = "://arxiv.org/abs/".data := rfl
  rw [reMatchArxiv, hsplit, List.append_assoc, dropScheme_https, htail]
  simp only [dropLit_append, takeWhile_of_all_pos hid]
  rw [if_neg hne]

theorem reMatchArxiv_pdf_of_id (idc : List Char) (hne : idc ≠ [])
    (hid : ∀ c ∈ idc, isIdChar c = true) :
    reMatchArxiv "pdf" ("https://arxiv.org/pdf/".data ++ idc) = some idc := by
  have hsplit : "https://arxiv.org/pdf/".data =
      "https".data ++ "://arxiv.org/pdf/".data := by decide
  have htail : ("://arxiv.org/" ++ "pdf" ++ "/").data = "://arxiv.org/pdf/".data := rfl
  rw [reMatchArxiv, hsplit, List.append_assoc, dropScheme_https, htail]
  simp only [dropLit_append, takeWhile_of_all_pos hid]
  rw [if_neg hne]

theorem reMatchArxiv_abs_on_pdf (rest : List Char) :
    reMatchArxiv "abs" ("https://arxiv.org/pdf/".data ++ rest) = none := by
  have hsplit : "https://arxiv.org/pdf/".data =
      "https".data ++ "://arxiv.org/pdf/".data := by decide
  have htail : ("://arxiv.org/" ++ "abs" ++ "/").data = "://arxiv.org/abs/".data := rfl
  rw [reMatchArxiv, hsplit, List.append_assoc, dropScheme_https, htail]
  simp only [dropLit, List.take_left' (show ("://arxiv.org/pdf/".data).length =
    ("://arxiv.org/abs/".data).length by decide)]
  rw [if_neg (by decide)]

theorem ws_not_idChar {c : Char} (hw : c.isWhitespace = true) : isIdChar c = false := by
  have hcase : c = ' ' ∨ c = '\t' ∨ c = '\r' ∨ c = '\n' := by
    by_cases h1 : c = ' '
    · exact Or.inl h1
    · by_cases h2 : c = '\t'
      · exact Or.inr (Or.inl h2)
      · by_cases h3 : c = '\r'
        · exact Or.inr (Or.inr (Or.inl h3))
        · by_cases h4 : c = '\n'
          · exact Or.inr (Or.inr (Or.inr h4))
          · exfalso
            have hf : c.isWhitespace = false := by
              simp [Char.isWhitespace, h1, h2, h3, h4]
            rw [hf] at hw
            exact Bool.noConfusion hw
  rcases hcase with rfl | rfl | rfl | rfl <;> decide

theorem isIdChar_not_ws {c : Char} (h : isIdChar c = true) : c.isWhitespace = false := by
  by_contra hw
  rw [Bool.not_eq_false] at hw
  have hf := ws_not_idChar hw
  rw [h] at hf
  exact Bool.noConfusion hf

theorem strip_noop_of (lit id : List Char)
    (hlit : ∀ c ∈ lit, Char.isWhitespace c = false)
    (hid : ∀ c ∈ id, isIdChar c = true) :
    dropAround Char.isWhitespace (lit ++ id) = lit ++ id :=
  dropAround_of_all_neg fun c hc => by
    rcases List.mem_append.mp hc with h | h
    · exact hlit c h
    · exact isIdChar_not_ws (hid c h)

theorem listEndsWith_append (suf rest : List Char) :
    listEndsWith suf (rest ++ suf) = true := by
  unfold listEndsWith
  rw [List.reverse_append, List.take_left' (by simp)]
  simp

/-- Claim C7: the `abs` form, the `pdf` form and the `pdf` form with a
trailing `.pdf` suffix of the same arXiv identifier all resolve to the same
canonical download URL and the same extracted identifier. -/
theorem arxiv_reference_forms_agree (id : String) (hne : id.data ≠ [])
    (hid : ∀ c ∈ id.data, isIdChar c = true)
    (hnp : listEndsWith ".pdf".data id.data = false) :
    parse_arxiv_url ("https://arxiv.org/abs/" ++ id) =
        some ("https://arxiv.org/pdf/" ++ id ++ ".pdf") ∧
      parse_arxiv_url ("https://arxiv.org/pdf/" ++ id) =
        some ("https://arxiv.org/pdf/" ++ id ++ ".pdf") ∧
      parse_arxiv_url ("https://arxiv.org/pdf/" ++ id ++ ".pdf") =
        some ("https://arxiv.org/pdf/" ++ id ++ ".pdf") ∧
      extract_arxiv_id ("https://arxiv.org/abs/" ++ id) = some id ∧
      extract_arxiv_id ("https://arxiv.org/pdf/" ++ id) = some id ∧
      extract_arxiv_id ("https://arxiv.org/pdf/" ++ id ++ ".pdf") = some id := by
  have hwsabs : ∀ c ∈ "https://arxiv.org/abs/".data, Char.isWhitespace c = false := by
    decide
  have hwspdf : ∀ c ∈ "https://arxiv.org/pdf/".data, Char.isWhitespace c = false := by
    decide
  have hpdfchars : ∀ c ∈ ".pdf".data, isIdChar c = true := by decide
  have hidp : ∀ c ∈ id.data ++ ".pdf".data, isIdChar c = true := by
    intro c hc
    rcases List.mem_append.mp hc with h | h
    · exact hid c h
    · exact hpdfchars c h
  have hnep : id.data ++ ".pdf".data ≠ [] := by simp
  have habs : ("https://arxiv.org/abs/" ++ id).data =
      "https://arxiv.org/abs/".data ++ id.data := strData_append _ _
  have hpdf : ("https://arxiv.org/pdf/" ++ id).data =
      "https://arxiv.org/pdf/".data ++ id.data := strData_append _ _
  have hpdfp : ("https://arxiv.org/pdf/" ++ id ++ ".pdf").data =
      "https://arxiv.org/pdf/".data ++ (id.data ++ ".pdf".data) := by
    rw [strData_append, strData_append, List.append_assoc]
  have htake : (id.data ++ ".pdf".data).take ((id.data ++ ".pdf".data).length - 4) =
      id.data := by
    have hlen : (id.data ++ ".pdf".data).length - 4 = id.data.length := by
      have h4 : ".pdf".data.length = 4 := rfl
      rw [List.length_append, h4]
      omega
    rw [hlen, List.take_left]
  have hjoin : ("https://arxiv.org/pdf/" ++ String.mk (id.data ++ ".pdf".data)) =
      "https://arxiv.org/pdf/" ++ id ++ ".pdf" := by
    apply strEq_of_data
    rw [strData_append, strData_append, strData_append, List.append_assoc]
  refine ⟨?_, ?_, ?_, ?_, ?_, ?_⟩
  · simp only [parse_arxiv_url, habs, strip_noop_of _ _ hwsabs hid,
      reMatchArxiv_abs_of_id id.data hne hid]
  · simp only [parse_arxiv_url, hpdf, strip_noop_of _ _ hwspdf hid,
      reMatchArxiv_abs_on_pdf id.data, reMatchArxiv_pdf_of_id id.data hne hid, hnp,
      Bool.false_eq_true, if_false]
  · simp only [parse_arxiv_url, hpdfp, strip_noop_of _ _ hwspdf hidp,
      reMatchArxiv_abs_on_pdf (id.data ++ ".pdf".data),
      reMatchArxiv_pdf_of_id _ hnep hidp,
      listEndsWith_append ".pdf".data id.data, if_true, hjoin]
  · simp only [extract_arxiv_id, habs, reMatchArxiv_abs_of_id id.data hne hid]
  · simp only [extract_arxiv_id, hpdf, reMatchArxiv_abs_on_pdf id.data,
      reMatchArxiv_pdf_of_id id.data hne hid, hnp, Bool.false_eq_true, if_false]
  · simp only [extract_arxiv_id, hpdfp,
      reMatchArxiv_abs_on_pdf (id.data ++ ".pdf".data),
      reMatchArxiv_pdf_of_id _ hnep hidp,
      listEndsWith_append ".pdf".data id.data, if_true, htake]

/-- Witness for C7 at the paper of the specification's example. -/
theorem arxiv_reference_forms_agree_witness :
    parse_arxiv_url "https://arxiv.org/abs/2412.15289" =
        some "https://arxiv.org/pdf/2412.15289.pdf" ∧
      extract_arxiv_id "https://arxiv.org/abs/2412.15289" = some "2412.15289" := by
  have h := arxiv_reference_forms_agree "2412.15289" (by decide) (by decide) (by decide)
  exact ⟨h.1, h.2.2.2.1⟩

/-- Counterexample to claim C10 as stated: for a valid reference surrounded
by (only) trailing whitespace, `extract_arxiv_id` does not return `None`:
`re.match` anchors at the start of the string only, so the unstripped
trailing whitespace is simply left uncaptured and the identifier is still
extracted, and the run proceeds rather than failing. -/
theorem whitespace_reference_counterexample :
    extract_arxiv_id "https://arxiv.org/abs/2412.15289 " = some "2412.15289" ∧
      extract_arxiv_id "https://arxiv.org/abs/2412.15289 " ≠ none ∧
      parse_arxiv_url "https://arxiv.org/abs/2412.15289 " =
        some "https://arxiv.org/pdf/2412.15289.pdf" := by decide

theorem dropLit_cons_ne {a c : Char} (lit cs : List Char) (h : c ≠ a) :
    dropLit (a :: lit) (c :: cs) = none := by
  have hcond : ¬ (c :: cs.take lit.length = a :: lit) := fun he => h (List.cons.inj he).1
  unfold dropLit
  rw [List.length_cons, List.take_succ_cons, if_neg hcond]

theorem dropScheme_ws_head {c : Char} (hc : c.isWhitespace = true) (rest : List Char) :
    dropScheme (c :: rest) = none := by
  have hch : c ≠ 'h' := by
    intro he
    rw [he] at hc
    exact absurd hc (by decide)
  unfold dropScheme
  rw [show "https".data = 'h' :: "ttps".data from rfl, dropLit_cons_ne _ _ hch,
    show "http".data = 'h' :: "ttp".data from rfl, dropLit_cons_ne _ _ hch]

theorem reMatchArxiv_ws_head (seg : String) {c : Char} (hc : c.isWhitespace = true)
    (rest : List Char) : reMatchArxiv seg (c :: rest) = none := by
  rw [reMatchArxiv, dropScheme_ws_head hc]

theorem dropWhile_append_of_all_pos {α : Type} {p : α → Bool} :
    ∀ {l1 : List α} (l2 : List α), (∀ c ∈ l1, p c = true) →
      (l1 ++ l2).dropWhile p = l2.dropWhile p
  | [], _, _ => rfl
  | c :: cs, l2, h => by
    rw [List.cons_append, List.dropWhile_cons_of_pos (h c (List.mem_cons_self c cs)),
      dropWhile_append_of_all_pos l2 (fun d hd => h d (List.mem_cons_of_mem c hd))]

theorem dropAround_append_of_all_pos {p : Char → Bool} {l1 : List Char} (l2 : List Char)
    (h : ∀ c ∈ l1, p c = true) : dropAround p (l1 ++ l2) = dropAround p l2 := by
  unfold dropAround
  rw [dropWhile_append_of_all_pos l2 h]

/-- Amended claim C10: for every valid arXiv reference — `abs` form, `pdf`
form, or `pdf` form with the trailing `.pdf` suffix — preceded by nonempty
leading whitespace, `parse_arxiv_url` (which strips its input) still
produces the canonical download URL, while `extract_arxiv_id` (which
matches the raw input without stripping) returns `None`, so
`process_arxiv_paper` reports failure before any directory is created or
any download attempted, even though the reference was resolvable. -/
theorem leading_whitespace_fails_before_download (ws id : String)
    (hws : ws.data ≠ []) (hwsall : ∀ c ∈ ws.data, c.isWhitespace = true)
    (hne : id.data ≠ []) (hid : ∀ c ∈ id.data, isIdChar c = true)
    (hnp : listEndsWith ".pdf".data id.data = false)
    (env : PEnv) (w : PWorld) (outputDir : String) :
    parse_arxiv_url (ws ++ "https://arxiv.org/abs/" ++ id) =
        some ("https://arxiv.org/pdf/" ++ id ++ ".pdf") ∧
      parse_arxiv_url (ws ++ "https://arxiv.org/pdf/" ++ id) =
        some ("https://arxiv.org/pdf/" ++ id ++ ".pdf") ∧
      parse_arxiv_url (ws ++ "https://arxiv.org/pdf/" ++ id ++ ".pdf") =
        some ("https://arxiv.org/pdf/" ++ id ++ ".pdf") ∧
      extract_arxiv_id (ws ++ "https://arxiv.org/abs/" ++ id) = none ∧
      extract_arxiv_id (ws ++ "https://arxiv.org/pdf/" ++ id) = none ∧
      extract_arxiv_id (ws ++ "https://arxiv.org/pdf/" ++ id ++ ".pdf") = none ∧
      process_arxiv_paper env w (ws ++ "https://arxiv.org/abs/" ++ id) outputDir =
        (false, w) ∧
      process_arxiv_paper env w (ws ++ "https://arxiv.org/pdf/" ++ id) outputDir =
        (false, w) ∧
      process_arxiv_paper env w (ws ++ "https://arxiv.org/pdf/" ++ id ++ ".pdf")
        outputDir = (false, w) := by
  have hwsabs : ∀ c ∈ "https://arxiv.org/abs/".data, Char.isWhitespace c = false := by
    decide
  have hwspdf : ∀ c ∈ "https://arxiv.org/pdf/".data, Char.isWhitespace c = false := by
    decide
  have hpdfchars : ∀ c ∈ ".pdf".data, isIdChar c = true := by decide
  have hidp : ∀ c ∈ id.data ++ ".pdf".data, isIdChar c = true := by
    intro c hc
    rcases List.mem_append.mp hc with h | h
    · exact hid c h
    · exact hpdfchars c h
  have hnep : id.data ++ ".pdf".data ≠ [] := by simp
  have habs : (ws ++ "https://arxiv.org/abs/" ++ id).data =
      ws.data ++ ("https://arxiv.org/abs/".data ++ id.data) := by
    rw [strData_append, strData_append, List.append_assoc]
  have hpdf : (ws ++ "https://arxiv.org/pdf/" ++ id).data =
      ws.data ++ ("https://arxiv.org/pdf/".data ++ id.data) := by
    rw [strData_append, strData_append, List.append_assoc]
  have hpdfp : (ws ++ "https://arxiv.org/pdf/" ++ id ++ ".pdf").data =
      ws.data ++ ("https://arxiv.org/pdf/".data ++ (id.data ++ ".pdf".data)) := by
    rw [strData_append, strData_append, strData_append, List.append_assoc,
      List.append_assoc]
  have hjoin : ("https://arxiv.org/pdf/" ++ String.mk (id.data ++ ".pdf".data)) =
      "https://arxiv.org/pdf/" ++ id ++ ".pdf" := by
    apply strEq_of_data
    rw [strData_append, strData_append, strData_append, List.append_assoc]
  have hstrip_abs : dropAround Char.isWhitespace
      ((ws ++ "https://arxiv.org/abs/" ++ id).data) =
      "https://arxiv.org/abs/".data ++ id.data := by
    rw [habs, dropAround_append_of_all_pos _ hwsall, strip_noop_of _ _ hwsabs hid]
  have hstrip_pdf : dropAround Char.isWhitespace
      ((ws ++ "https://arxiv.org/pdf/" ++ id).data) =
      "https://arxiv.org/pdf/".data ++ id.data := by
    rw [hpdf, dropAround_append_of_all_pos _ hwsall, strip_noop_of _ _ hwspdf hid]
  have hstrip_pdfp : dropAround Char.isWhitespace
      ((ws ++ "https://arxiv.org/pdf/" ++ id ++ ".pdf").data) =
      "https://arxiv.org/pdf/".data ++ (id.data ++ ".pdf".data) := by
    rw [hpdfp, dropAround_append_of_all_pos _ hwsall, strip_noop_of _ _ hwspdf hidp]
  have hparse_abs : parse_arxiv_url (ws ++ "https://arxiv.org/abs/" ++ id) =
      some ("https://arxiv.org/pdf/" ++ id ++ ".pdf") := by
    simp only [parse_arxiv_url, hstrip_abs, reMatchArxiv_abs_of_id id.data hne hid]
  have hparse_pdf : parse_arxiv_url (ws ++ "https://arxiv.org/pdf/" ++ id) =
      some ("https://arxiv.org/pdf/" ++ id ++ ".pdf") := by
    simp only [parse_arxiv_url, hstrip_pdf, reMatchArxiv_abs_on_pdf id.data,
      reMatchArxiv_pdf_of_id id.data hne hid, hnp, Bool.false_eq_true, if_false]
  have hparse_pdfp : parse_arxiv_url (ws ++ "https://arxiv.org/pdf/" ++ id ++ ".pdf") =
      some ("https://arxiv.org/pdf/" ++ id ++ ".pdf") := by
    simp only [parse_arxiv_url, hstrip_pdfp,
      reMatchArxiv_abs_on_pdf (id.data ++ ".pdf".data),
      reMatchArxiv_pdf_of_id _ hnep hidp, listEndsWith_append ".pdf".data id.data,
      if_true, hjoin]
  obtain ⟨c, ws', hw⟩ : ∃ c ws', ws.data = c :: ws' := by
    rcases hwd : ws.data with - | ⟨c, ws'⟩
    · exact absurd hwd hws
    · exact ⟨c, ws', rfl⟩
  have hc : c.isWhitespace = true := hwsall c (by rw [hw]; exact List.mem_cons_self c ws')
  have hext_abs : extract_arxiv_id (ws ++ "https://arxiv.org/abs/" ++ id) = none := by
    simp only [extract_arxiv_id, habs, hw, List.cons_append,
      reMatchArxiv_ws_head "abs" hc, reMatchArxiv_ws_head "pdf" hc]
  have hext_pdf : extract_arxiv_id (ws ++ "https://arxiv.org/pdf/" ++ id) = none := by
    simp only [extract_arxiv_id, hpdf, hw, List.cons_append,
      reMatchArxiv_ws_head "abs" hc, reMatchArxiv_ws_head "pdf" hc]
  have hext_pdfp : extract_arxiv_id (ws ++ "https://arxiv.org/pdf/" ++ id ++ ".pdf") =
      none := by
    simp only [extract_arxiv_id, hpdfp, hw, List.cons_append,
      reMatchArxiv_ws_head "abs" hc, reMatchArxiv_ws_head "pdf" hc]
  refine ⟨hparse_abs, hparse_pdf, hparse_pdfp, hext_abs, hext_pdf, hext_pdfp,
    ?_, ?_, ?_⟩
  · simp only [process_arxiv_paper, hparse_abs, hext_abs]
  · simp only [process_arxiv_paper, hparse_pdf, hext_pdf]
  · simp only [process_arxiv_paper, hparse_pdfp, hext_pdfp]

/-- Witness for the amended C10 at a concrete reference with a
multi-character whitespace prefix (tab plus space), for all three
reference forms. -/
theorem leading_whitespace_fails_before_download_witness :
    parse_arxiv_url ("\t " ++ "https://arxiv.org/abs/" ++ "2412.15289") =
        some ("https://arxiv.org/pdf/" ++ "2412.15289" ++ ".pdf") ∧
      parse_arxiv_url ("\t " ++ "https://arxiv.org/pdf/" ++ "2412.15289") =
        some ("https://arxiv.org/pdf/" ++ "2412.15289" ++ ".pdf") ∧
      parse_arxiv_url ("\t " ++ "https://arxiv.org/pdf/" ++ "2412.15289" ++ ".pdf") =
        some ("https://arxiv.org/pdf/" ++ "2412.15289" ++ ".pdf") ∧
      extract_arxiv_id ("\t " ++ "https://arxiv.org/abs/" ++ "2412.15289") = none ∧
      extract_arxiv_id ("\t " ++ "https://arxiv.org/pdf/" ++ "2412.15289") = none ∧
      extract_arxiv_id ("\t " ++ "https://arxiv.org/pdf/" ++ "2412.15289" ++ ".pdf") =
        none ∧
      process_arxiv_paper ⟨true, true, true, "", [], true, true⟩ ⟨[], []⟩
        ("\t " ++ "https://arxiv.org/abs/" ++ "2412.15289") "output" =
        (false, ⟨[], []⟩) ∧
      process_arxiv_paper ⟨true, true, true, "", [], true, true⟩ ⟨[], []⟩
        ("\t " ++ "https://arxiv.org/pdf/" ++ "2412.15289") "output" =
        (false, ⟨[], []⟩) ∧
      process_arxiv_paper ⟨true, true, true, "", [], true, true⟩ ⟨[], []⟩
        ("\t " ++ "https://arxiv.org/pdf/" ++ "2412.15289" ++ ".pdf") "output" =
        (false, ⟨[], []⟩) :=
  leading_whitespace_fails_before_download "\t " "2412.15289" (by decide) (by decide)
    (by decide) (by decide) (by decide)
    ⟨true, true, true, "", [], true, true⟩ ⟨[], []⟩ "output"

/-! ## Image enhancement claims -/

/-- Python's `int(np.sqrt(a / b))` on naturals (true division, float square
root, truncation) agrees with `Nat.sqrt (a / b)`: the floor of the real
square root of the real quotient is the natural square root of the natural
quotient. -/
theorem natFloorSqrtDiv (a b : ℕ) :
    ⌊Real.sqrt ((a : ℝ) / (b : ℝ))⌋₊ = Nat.sqrt (a / b) := by
  have hfl : ⌊(a : ℝ) / (b : ℝ)⌋₊ = a / b := by
    rw [show ((b : ℝ)) = ((b : ℕ) : ℝ) from rfl, Nat.floor_div_nat]
    simp
  rw [Nat.floor_eq_iff (Real.sqrt_nonneg _)]
  constructor
  · calc ((a / b : ℕ).sqrt : ℝ) ≤ Real.sqrt ((a / b : ℕ) : ℝ) :=
          Real.nat_sqrt_le_real_sqrt
      _ ≤ Real.sqrt ((a : ℝ) / (b : ℝ)) := Real.sqrt_le_sqrt (Nat.cast_div_le)
  · have hlt : (a : ℝ) / (b : ℝ) < ((a / b : ℕ) : ℝ) + 1 := by
      have := Nat.lt_floor_add_one ((a : ℝ) / (b : ℝ))
      rwa [hfl] at this
    have hsq : ((a / b : ℕ) : ℝ) + 1 ≤ (((a / b : ℕ).sqrt : ℝ) + 1) ^ 2 := by
      have hn : (a / b) + 1 ≤ ((a / b).sqrt + 1) * ((a / b).sqrt + 1) := by
        have := Nat.lt_succ_sqrt' (a / b)
        simpa [Nat.succ_eq_add_one, pow_two] using this
      calc ((a / b : ℕ) : ℝ) + 1 = (((a / b) + 1 : ℕ) : ℝ) := by push_cast; ring
        _ ≤ ((((a / b).sqrt + 1) * ((a / b).sqrt + 1) : ℕ) : ℝ) := by
            exact_mod_cast hn
        _ = (((a / b : ℕ).sqrt : ℝ) + 1) ^ 2 := by push_cast; ring
    have hy : (0 : ℝ) < ((a / b : ℕ).sqrt : ℝ) + 1 := by positivity
    rw [show ((a / b : ℕ).sqrt : ℝ) + 1 = (((a / b : ℕ).sqrt + 1 : ℕ) : ℝ) by push_cast; ring]
      at hsq hy ⊢
    exact (Real.sqrt_lt' hy).mpr (lt_of_lt_of_le hlt hsq)

/-- Claim C3: whenever the enhancement body raises, `enhance_image_quality`
falls back to a byte-for-byte copy of the source at `dst_path`; in
particular, when the advanced (cv2) capability is absent and the image is
under one megapixel, the body always raises (`np` is unbound) and the
output is byte-identical to the input. -/
theorem enhance_failure_byte_identical (env env' : ImgEnv) (srcBytes : List Nat)
    (srcPath dstPath : String) (img : Img) (e : String)
    (hfail : enhanceBody env dstPath = .error e)
    (hpil : env'.hasPIL = true) (hcv2 : env'.hasCv2 = false)
    (hopen : env'.openResult = some img)
    (hsmall : img.width * img.height < 1000000) :
    enhance_image_quality env srcBytes srcPath dstPath = (dstPath, srcBytes) ∧
      enhanceBody env' dstPath = .error "NameError: name np is not defined" ∧
      enhance_image_quality env' srcBytes srcPath dstPath = (dstPath, srcBytes) := by
  have hbody : enhanceBody env' dstPath = .error "NameError: name np is not defined" := by
    unfold enhanceBody
    rw [hpil, hopen, hcv2]
    by_cases hm : img.mode = "RGB" <;>
      simp [hm, hsmall]
  refine ⟨?_, hbody, ?_⟩
  · unfold enhance_image_quality
    rw [hfail]
  · unfold enhance_image_quality
    rw [hbody]

/-- Witness for C3 at a concrete environment: PIL present, cv2 absent,
100×100 source image. -/
theorem enhance_failure_byte_identical_witness :
    enhance_image_quality
        ⟨true, false, some ⟨100, 100, "RGB"⟩, none, false, false, fun _ => [7]⟩
        [1, 2, 3] "s.png" "d.png" = ("d.png", [1, 2, 3]) ∧
      enhanceBody ⟨true, false, some ⟨100, 100, "RGB"⟩, none, false, false, fun _ => [7]⟩
        "d.png" = .error "NameError: name np is not defined" ∧
      enhance_image_quality
        ⟨true, false, some ⟨100, 100, "RGB"⟩, none, false, false, fun _ => [7]⟩
        [1, 2, 3] "s.png" "d.png" = ("d.png", [1, 2, 3]) :=
  enhance_failure_byte_identical _ _ [1, 2, 3] "s.png" "d.png" ⟨100, 100, "RGB"⟩
    "NameError: name np is not defined" rfl rfl rfl rfl (by decide)

/-- Counterexample to claim C4 as stated: with the advanced capability
unavailable and a 100×100 image (under one megapixel), no resampling
upscale is produced at all — `numpy` is imported only together with `cv2`,
so `np.sqrt` raises `NameError` and the function falls back to the raw
byte-for-byte copy at `dst_path` instead of writing a resampled
`*_enhanced.png` output. -/
theorem upscale_unavailable_counterexample :
    enhance_image_quality
        ⟨true, false, some ⟨100, 100, "RGB"⟩, none, false, false, fun _ => [7]⟩
        [1, 2, 3] "s.png" "d.png" = ("d.png", [1, 2, 3]) ∧
      ("d.png" : String) ≠ splitextBase "d.png" ++ "_enhanced.png" :=
  ⟨rfl, by decide⟩

/-- Amended claim C4: when the advanced capability is *available but its
super-resolution step fails* (returns `None`), every image under one
megapixel is upscaled by the deterministic resampling step whose scale
factor is the integer floor of `√(2000000 / original_pixel_count)` clamped
to a maximum factor of 4, applied uniformly to width and height.  (When the
capability is absent, the resampling step instead raises `NameError`; see
the counterexample.) -/
theorem upscale_scale_factor_when_sr_fails (env : ImgEnv) (srcBytes : List Nat)
    (srcPath dstPath : String) (img : Img)
    (h1 : env.hasPIL = true) (h2 : env.hasCv2 = true) (h3 : env.openResult = some img)
    (h4 : env.srResult = none) (h5 : env.resizeFails = false) (h6 : env.saveFails = false)
    (h7 : img.width * img.height < 1000000) :
    enhance_image_quality env srcBytes srcPath dstPath =
      (splitextBase dstPath ++ "_enhanced.png",
       env.encodePng (apply_image_enhancement
         ⟨img.width * min 4 ⌊Real.sqrt ((2000000 : ℝ) /
              ((img.width * img.height : ℕ) : ℝ))⌋₊,
          img.height * min 4 ⌊Real.sqrt ((2000000 : ℝ) /
              ((img.width * img.height : ℕ) : ℝ))⌋₊,
          "RGB"⟩)) := by
  have hsqrt : ⌊Real.sqrt ((2000000 : ℝ) / ((img.width * img.height : ℕ) : ℝ))⌋₊ =
      Nat.sqrt (2000000 / (img.width * img.height)) := by
    rw [show ((2000000 : ℝ)) = ((2000000 : ℕ) : ℝ) by push_cast; ring]
    exact natFloorSqrtDiv 2000000 (img.width * img.height)
  unfold enhance_image_quality enhanceBody
  rw [h1, h3, h2, h4, hsqrt]
  by_cases hm : img.mode = "RGB" <;>
    simp [hm, h5, h6, h7]

/-- Witness for the amended C4: a 100×100 image is resampled with scale
factor `min 4 ⌊√(2000000/10000)⌋ = 4`. -/
theorem upscale_scale_factor_when_sr_fails_witness :
    enhance_image_quality
        ⟨true, true, some ⟨100, 100, "RGB"⟩, none, false, false, fun _ => [7]⟩
        [1, 2, 3] "s.png" "d.png" =
      (splitextBase "d.png" ++ "_enhanced.png",
       (⟨true, true, some ⟨100, 100, "RGB"⟩, none, false, false,
          fun _ => [7]⟩ : ImgEnv).encodePng
         (apply_image_enhancement
           ⟨100 * min 4 ⌊Real.sqrt ((2000000 : ℝ) / ((100 * 100 : ℕ) : ℝ))⌋₊,
            100 * min 4 ⌊Real.sqrt ((2000000 : ℝ) / ((100 * 100 : ℕ) : ℝ))⌋₊,
            "RGB"⟩)) :=
  upscale_scale_factor_when_sr_fails _ [1, 2, 3] "s.png" "d.png" ⟨100, 100, "RGB"⟩
    rfl rfl rfl rfl rfl rfl (by decide)

/-! ## Image copying loop claims -/

theorem copyLoop_eq : ∀ (files : List ImgFile) (n : Nat),
    copyLoop files n = n + files.countP successfulItem
  | [], n => by simp [copyLoop]
  | f :: fs, n => by
    by_cases hext : hasImageExt f.name <;>
      by_cases h1 : f.sizeFails <;>
        by_cases h2 : f.size < 5000 <;>
          by_cases h3 : f.enhanceFails <;>
            simp [copyLoop, processImage, successfulItem, hext, h1, h2, h3,
              List.countP_cons, copyLoop_eq fs] <;> omega

theorem successfulItem_of_raised {f : ImgFile} (hf : processImage f = .raised) :
    successfulItem f = false := by
  unfold processImage at hf
  unfold successfulItem
  by_cases h1 : f.sizeFails
  · simp [h1]
  · rw [if_neg h1] at hf
    by_cases h2 : f.size < 5000
    · rw [if_pos h2] at hf; simp at hf
    · rw [if_neg h2] at hf
      by_cases h3 : f.enhanceFails
      · simp [h3]
      · rw [if_neg h3] at hf; simp at hf

/-- Claim C1: inside the copy loop a candidate whose processing raises is
simply skipped — the remaining candidates are still processed — and the
function returns the number of successfully produced outputs together with
the per-paper destination directory. -/
theorem copy_images_isolated_failure (pre post : List ImgFile) (bad : ImgFile)
    (hbad : processImage bad = .raised) (outputDir paperTitle : String) :
    copy_images_to_output (pre ++ bad :: post) outputDir paperTitle true =
      ((pre ++ post).countP successfulItem, outputDir ++ "/" ++ paperTitle) := by
  have hs : successfulItem bad = false := successfulItem_of_raised hbad
  unfold copy_images_to_output
  rw [if_neg (by simp)]
  rw [copyLoop_eq]
  simp [List.countP_append, List.countP_cons, hs]

/-- Witness for C1: the malformed middle candidate is skipped, its two
well-formed neighbours are still copied. -/
theorem copy_images_isolated_failure_witness :
    copy_images_to_output ([⟨"a.png", 6000, false, false⟩] ++
        ⟨"x.png", 8000, false, true⟩ :: [⟨"b.jpg", 7000, false, false⟩])
      "out" "T" true = (2, "out/T") := by
  rw [copy_images_isolated_failure _ _ _ (by decide) "out" "T"]
  decide

/-- Claim C5: a candidate with an accepted extension and fault-free
processing contributes to the copied count exactly when its byte size is at
least the 5000-byte threshold. -/
theorem size_filter_five_kb (pre post : List ImgFile) (f : ImgFile)
    (hext : hasImageExt f.name = true) (h1 : f.sizeFails = false)
    (h3 : f.enhanceFails = false) (outputDir paperTitle : String) :
    (copy_images_to_output (pre ++ f :: post) outputDir paperTitle true).1 =
      (copy_images_to_output (pre ++ post) outputDir paperTitle true).1 +
        (if 5000 ≤ f.size then 1 else 0) := by
  have hone : (if successfulItem f = true then 1 else 0) =
      (if 5000 ≤ f.size then 1 else 0) := by
    by_cases h2 : f.size < 5000
    · rw [if_neg (by omega : ¬ 5000 ≤ f.size)]
      simp [successfulItem, hext, h1, h3, h2]
    · rw [if_pos (by omega : 5000 ≤ f.size)]
      simp [successfulItem, hext, h1, h3, h2]
  unfold copy_images_to_output
  rw [if_neg (by simp), if_neg (by simp), copyLoop_eq, copyLoop_eq]
  simp only [List.countP_append, List.countP_cons]
  rw [hone]
  omega

/-- Witness for C5: a 4 kB (4000-byte) candidate is excluded while a 6 kB
(6000-byte) candidate is included. -/
theorem size_filter_five_kb_witness :
    (copy_images_to_output ([] ++ (⟨"small.png", 4000, false, false⟩ : ImgFile) :: [])
        "out" "T" true).1 =
      (copy_images_to_output ([] ++ []) "out" "T" true).1 + (if 5000 ≤ 4000 then 1 else 0) ∧
    (copy_images_to_output ([] ++ (⟨"big.gif", 6000, false, false⟩ : ImgFile) :: [])
        "out" "T" true).1 =
      (copy_images_to_output ([] ++ []) "out" "T" true).1 + (if 5000 ≤ 6000 then 1 else 0) ∧
    (if (5000 : Nat) ≤ 4000 then (1 : Nat) else 0) = 0 ∧
    (if (5000 : Nat) ≤ 6000 then (1 : Nat) else 0) = 1 :=
  ⟨size_filter_five_kb [] [] ⟨"small.png", 4000, false, false⟩ (by decide) rfl rfl "out" "T",
   size_filter_five_kb [] [] ⟨"big.gif", 6000, false, false⟩ (by decide) rfl rfl "out" "T",
   by decide, by decide⟩

/-! ## Images-directory location claims -/

theorem pathExists_mkdirFS (fs : FS) (p : FPath) : pathExists (mkdirFS fs p) p = true := by
  unfold pathExists mkdirFS
  by_cases h : fs.dirs.contains p = true
  · rw [if_pos h]; exact h
  · rw [if_neg h]
    simp

theorem files_mkdirFS (fs : FS) (p : FPath) : (mkdirFS fs p).files = fs.files := by
  unfold mkdirFS
  split <;> rfl

theorem filesUnder_mkdirFS (fs : FS) (p d : FPath) :
    filesUnder (mkdirFS fs p) d = filesUnder fs d := by
  unfold filesUnder
  rw [files_mkdirFS]

theorem findImagesWalk_exists {fs : FS} {root p : FPath}
    (h : findImagesWalk fs root = some p) : pathExists fs p = true := by
  obtain ⟨d, _, hfd⟩ := List.exists_of_findSome?_eq_some h
  by_cases hc : pathUnder root d ∧ fs.dirs.contains (d ++ ["images"])
  · rw [if_pos hc] at hfd
    obtain rfl := Option.some.inj hfd
    exact hc.2
  · rw [if_neg hc] at hfd
    exact absurd hfd (by simp)

/-- Claim C2: the images directory returned by a normal return of
`extract_images_with_mineru` always exists in the resulting filesystem
(hard invariant), and when none of the four candidate paths exists and the
recursive walk finds no `images` directory, an empty images directory is
synthesized under the working output directory and the function returns
normally with it (so the run continues with zero images). -/
theorem extract_images_exists_and_fallback
    (menv menv' : MineruEnv) (fs fs' : FS) (pdfPath outputDir pp od dir : FPath)
    (t : String) (fs2 : FS)
    (hrun : extract_images_with_mineru menv' fs' pp od = .ok (dir, t, fs2))
    (hav : menv.available = true) (hok : menv.exitOk = true)
    (hc1 : pathExists (mkdirFS fs (outputDir ++ ["mineru_output"]))
      (outputDir ++ ["mineru_output", splitextBase (lastComponent pdfPath),
        "auto", "images"]) = false)
    (hc2 : pathExists (mkdirFS fs (outputDir ++ ["mineru_output"]))
      (outputDir ++ ["mineru_output", splitextBase (lastComponent pdfPath),
        "images"]) = false)
    (hc3 : pathExists (mkdirFS fs (outputDir ++ ["mineru_output"]))
      (outputDir ++ ["mineru_output", "auto", "images"]) = false)
    (hc4 : pathExists (mkdirFS fs (outputDir ++ ["mineru_output"]))
      (outputDir ++ ["mineru_output", "images"]) = false)
    (hwalk : findImagesWalk (mkdirFS fs (outputDir ++ ["mineru_output"]))
      (outputDir ++ ["mineru_output"]) = none)
    (hemp : filesUnder fs (outputDir ++ ["images"]) = []) :
    pathExists fs2 dir = true ∧
      extract_images_with_mineru menv fs pdfPath outputDir =
        .ok (outputDir ++ ["images"], splitextBase (lastComponent pdfPath),
          mkdirFS (mkdirFS fs (outputDir ++ ["mineru_output"]))
            (outputDir ++ ["images"])) ∧
      filesUnder (mkdirFS (mkdirFS fs (outputDir ++ ["mineru_output"]))
        (outputDir ++ ["images"])) (outputDir ++ ["images"]) = [] := by
  refine ⟨?_, ?_, ?_⟩
  · simp only [extract_images_with_mineru] at hrun
    split at hrun
    · exact absurd hrun (by simp)
    · split at hrun
      · exact absurd hrun (by simp)
      · split at hrun
        · rename_i p hp
          simp only [Except.ok.injEq, Prod.mk.injEq] at hrun
          obtain ⟨rfl, -, rfl⟩ := hrun
          split at hp
          · rename_i q hq
            obtain rfl := Option.some.inj hp
            simpa using List.find?_some hq
          · exact findImagesWalk_exists hp
        · simp only [Except.ok.injEq, Prod.mk.injEq] at hrun
          obtain ⟨rfl, -, rfl⟩ := hrun
          exact pathExists_mkdirFS _ _
  · have hfind : (([((outputDir ++ ["mineru_output"]) ++
          [splitextBase (lastComponent pdfPath), "auto", "images"]),
        ((outputDir ++ ["mineru_output"]) ++
          [splitextBase (lastComponent pdfPath), "images"]),
        ((outputDir ++ ["mineru_output"]) ++ ["auto", "images"]),
        ((outputDir ++ ["mineru_output"]) ++ ["images"])] : List FPath).find?
          (fun p => pathExists (mkdirFS fs (outputDir ++ ["mineru_output"])) p)) =
        none := by
      rw [List.find?_eq_none]
      intro p hp
      simp only [List.mem_cons, List.not_mem_nil, or_false] at hp
      rcases hp with rfl | rfl | rfl | rfl
      · simp [hc1]
      · simp [hc2]
      · simp [hc3]
      · simp [hc4]
    simp only [extract_images_with_mineru]
    rw [hav, hok, if_neg (by simp), if_neg (by simp), hfind, hwalk]
  · rw [filesUnder_mkdirFS, filesUnder_mkdirFS, hemp]

/-- Witness for C2: an empty tool output tree triggers the synthesized
fallback directory. -/
theorem extract_images_exists_and_fallback_witness :
    pathExists (⟨[["t", "mineru_output"], ["t", "images"]], []⟩ : FS) ["t", "images"] =
        true ∧
      extract_images_with_mineru ⟨true, true⟩ ⟨[], []⟩ ["t", "x.pdf"] ["t"] =
        .ok (["t", "images"], splitextBase (lastComponent ["t", "x.pdf"]),
          mkdirFS (mkdirFS ⟨[], []⟩ (["t"] ++ ["mineru_output"])) (["t"] ++ ["images"])) ∧
      filesUnder (mkdirFS (mkdirFS (⟨[], []⟩ : FS) (["t"] ++ ["mineru_output"]))
        (["t"] ++ ["images"])) (["t"] ++ ["images"]) = [] := by
  have h := extract_images_exists_and_fallback ⟨true, true⟩ ⟨true, true⟩
    ⟨[], []⟩ ⟨[], []⟩ ["t", "x.pdf"] ["t"] ["t", "x.pdf"] ["t"] ["t", "images"]
    "x" (⟨[["t", "mineru_output"], ["t", "images"]], []⟩ : FS)
    (by rfl) rfl rfl (by decide) (by decide) (by decide) (by decide) (by decide) (by decide)
  exact h

/-! ## Title-heuristic claims -/

/-- Modelled from the amended claim C6 wording: looking only at the first
50 lines, accept the first stripped line that begins with a single `#` plus
a space and whose stripped heading text is strictly longer than 10 and
strictly shorter than 200 characters and contains none of the stop words
(abstract, introduction, content, table, figure) as a case-insensitive
substring. -/
def headingLineClaim (raw : List Char) : Option String :=
  let line := dropAround Char.isWhitespace raw
  if line.take 2 = ['#', ' '] then
    let title := dropAround Char.isWhitespace (line.drop 2)
    if 10 < title.length ∧ title.length < 200 ∧
        ¬ (skipWords1.any fun w => hasSub w (pyLower title)) then
      some (String.mk title)
    else none
  else none

/-- The heading scan of the amended claim C6, over a whole transcript. -/
def headingScanClaim (content : String) : Option String :=
  ((splitOnChar '\n' content.data).take 50).findSome? headingLineClaim

theorem stripped_heading_len (raw : List Char)
    (h : (dropAround Char.isWhitespace raw).take 2 = ['#', ' ']) :
    2 < (dropAround Char.isWhitespace raw).length := by
  have hback := dropAround_back Char.isWhitespace raw
  rcases hml : dropAround Char.isWhitespace raw with - | ⟨a, - | ⟨b, t⟩⟩
  · rw [hml] at h; simp at h
  · rw [hml] at h; simp at h
  · rw [hml] at h
    have h' : [a, b] = ['#', ' '] := h
    obtain ⟨rfl, h''⟩ := List.cons.inj h'
    obtain ⟨rfl, -⟩ := List.cons.inj h''
    rcases t with - | ⟨c, t'⟩
    · rw [hml] at hback
      exact absurd hback (by decide)
    · simp only [List.length_cons]
      omega

theorem headingLineClaim_eq (raw : List Char) :
    headingLineClaim raw = Option.map String.mk (method1Line raw) := by
  unfold headingLineClaim method1Line
  by_cases h2 : (dropAround Char.isWhitespace raw).take 2 = ['#', ' ']
  · have hlen : 2 < (dropAround Char.isWhitespace raw).length :=
      stripped_heading_len raw h2
    have hcode : (dropAround Char.isWhitespace raw).take 2 = ['#', ' '] ∧
        (dropAround Char.isWhitespace raw).length > 2 := ⟨h2, hlen⟩
    rw [if_pos h2, if_pos hcode]
    set t := dropAround Char.isWhitespace ((dropAround Char.isWhitespace raw).drop 2)
      with ht
    by_cases hC : (skipWords1.any fun w => hasSub w (pyLower t)) = true
    · have hnA : ¬ (10 < t.length ∧ t.length < 200 ∧
          ¬ ((skipWords1.any fun w => hasSub w (pyLower t)) = true)) :=
        fun hA => hA.2.2 hC
      have hnB : ¬ ¬ ((skipWords1.any fun w => hasSub w (pyLower t)) = true) :=
        fun hnc => hnc hC
      rw [if_neg hnA, if_neg hnB]
      rfl
    · by_cases hB : 10 < t.length ∧ t.length < 200
      · have hA : 10 < t.length ∧ t.length < 200 ∧
            ¬ ((skipWords1.any fun w => hasSub w (pyLower t)) = true) :=
          ⟨hB.1, hB.2, hC⟩
        have hcodeC : ¬ ((skipWords1.any fun w => hasSub w (pyLower t)) = true) := hC
        have hcodeB : t.length > 10 ∧ t.length < 200 := ⟨hB.1, hB.2⟩
        rw [if_pos hA, if_pos hcodeC, if_pos hcodeB]
        rfl
      · have hnA : ¬ (10 < t.length ∧ t.length < 200 ∧
            ¬ ((skipWords1.any fun w => hasSub w (pyLower t)) = true)) :=
          fun hA => hB ⟨hA.1, hA.2.1⟩
        have hcodeC : ¬ ((skipWords1.any fun w => hasSub w (pyLower t)) = true) := hC
        have hnB : ¬ (t.length > 10 ∧ t.length < 200) := fun hB' => hB ⟨hB'.1, hB'.2⟩
        rw [if_neg hnA, if_pos hcodeC, if_neg hnB]
        rfl
  · have hncode : ¬ ((dropAround Char.isWhitespace raw).take 2 = ['#', ' '] ∧
        (dropAround Char.isWhitespace raw).length > 2) := fun hA => h2 hA.1
    rw [if_neg h2, if_neg hncode]
    rfl

theorem findSome?_map_mk {α : Type} (f : α → Option (List Char)) (l : List α) :
    (l.findSome? fun a => Option.map String.mk (f a)) =
      Option.map String.mk (l.findSome? f) := by
  induction l with
  | nil => rfl
  | cons a l ih =>
    rw [List.findSome?_cons, List.findSome?_cons]
    cases hf : f a with
    | none => simpa [hf] using ih
    | some v => simp [hf]

/-- Amended claim C6: the heading scan (strict 10/200 bounds) inspects only
the first 50 lines and, whenever it finds a qualifying level-1 heading, that
heading is the title returned by `extract_title_from_markdown` — before the
plain-line and bold-span heuristics are consulted. -/
theorem heading_scan_wins (content : String) (t : String)
    (h : headingScanClaim content = some t) :
    extract_title_from_markdown content = t := by
  have heq : headingScanClaim content =
      Option.map String.mk (titleMethod1 (splitOnChar '\n' content.data)) := by
    have hfun : headingLineClaim = fun raw => Option.map String.mk (method1Line raw) :=
      funext headingLineClaim_eq
    unfold headingScanClaim titleMethod1
    rw [hfun]
    exact findSome?_map_mk method1Line _
  rw [heq] at h
  rcases hm : titleMethod1 (splitOnChar '\n' content.data) with - | u
  · rw [hm] at h
    exact Option.noConfusion h
  · rw [hm] at h
    have h' : String.mk u = t := Option.some.inj h
    simp only [extract_title_from_markdown]
    rw [hm]
    exact h'

/-- Witness for the amended C6: a transcript with both a qualifying heading
and a qualifying bold span; the heading wins. -/
theorem heading_scan_wins_witness :
    headingScanClaim
        "# A Study of Widget Dynamics\n**A Bold Span Title Of Decent Length**" =
      some "A Study of Widget Dynamics" ∧
    extract_title_from_markdown
        "# A Study of Widget Dynamics\n**A Bold Span Title Of Decent Length**" =
      "A Study of Widget Dynamics" :=
  ⟨by decide, heading_scan_wins _ _ (by decide)⟩

/-- Counterexample to claim C6 as stated: a level-1 heading whose text is
exactly 10 characters long (within the claim's inclusive "10-200" bounds
and stop-word free) is *not* accepted — the code requires the length to be
strictly greater than 10 — and the transcript yields the empty string. -/
theorem heading_scan_bounds_counterexample :
    extract_title_from_markdown "# 0123456789" = "" ∧
      ("0123456789" : String).length = 10 ∧
      (skipWords1.any fun w => hasSub w (pyLower "0123456789".data)) = false ∧
      ("" : String) ≠ "0123456789" := by decide

/-! ## End-to-end driver claims -/

theorem dirs_addFileP (w : PWorld) (p : String) : (addFileP w p).dirs = w.dirs := by
  unfold addFileP
  split <;> rfl

theorem files_mkdirP (w : PWorld) (p : String) : (mkdirP w p).files = w.files := by
  unfold mkdirP
  split <;> rfl

theorem mem_dirs_mkdirP {q : String} (w : PWorld) (p : String) :
    q ∈ (mkdirP w p).dirs ↔ q ∈ w.dirs ∨ q = p := by
  unfold mkdirP
  split
  · constructor
    · exact Or.inl
    · rename_i h
      rintro (hq | rfl)
      · exact hq
      · simpa using h
  · simp [List.mem_append]

theorem mem_dirs_addFileP {q : String} (w : PWorld) (p : String) :
    q ∈ (addFileP w p).dirs ↔ q ∈ w.dirs := by
  rw [dirs_addFileP]

theorem mkdirP_of_mem {w : PWorld} {p : String} (h : p ∈ w.dirs) : mkdirP w p = w := by
  unfold mkdirP
  rw [if_pos (by simpa using h)]

theorem addFileP_of_mem {w : PWorld} {p : String} (h : p ∈ w.files) :
    addFileP w p = w := by
  unfold addFileP
  rw [if_pos (by simpa using h)]

theorem mem_files_addFileP_self (w : PWorld) (p : String) :
    p ∈ (addFileP w p).files := by
  unfold addFileP
  split
  · rename_i h
    simpa using h
  · simp

/-- Claim C9: when the external tool binary is missing (and the reference
resolved and the download succeeded), `process_arxiv_paper` reports
failure; the only paths it may have created are the output root, the
temporary workspace and the tool output directory — in particular no
per-paper output directory; and re-running on the world it left behind
returns the identical result, so the leftover temporary workspace does not
block a re-run. -/
theorem missing_tool_fails_cleanly (env : PEnv) (w : PWorld)
    (arxivUrl outputDir pdfUrl paperId d : String)
    (hp : parse_arxiv_url arxivUrl = some pdfUrl)
    (hid : extract_arxiv_id arxivUrl = some paperId)
    (hdl : env.downloadOk = true) (hm : env.mineruAvailable = false)
    (hd : d ∈ (process_arxiv_paper env w arxivUrl outputDir).2.dirs) :
    (process_arxiv_paper env w arxivUrl outputDir).1 = false ∧
      (d ∈ w.dirs ∨ d = outputDir ∨ d = outputDir ++ "/.tmp" ∨
        d = outputDir ++ "/.tmp" ++ "/mineru_output") ∧
      process_arxiv_paper env ((process_arxiv_paper env w arxivUrl outputDir).2)
        arxivUrl outputDir = process_arxiv_paper env w arxivUrl outputDir := by
  have hrun : process_arxiv_paper env w arxivUrl outputDir =
      (false, mkdirP (addFileP (mkdirP (mkdirP w outputDir) (outputDir ++ "/.tmp"))
        (outputDir ++ "/.tmp" ++ "/" ++ sanitize_filename paperId ++ ".pdf"))
        (outputDir ++ "/.tmp" ++ "/mineru_output")) := by
    simp only [process_arxiv_paper, hp, hid, hdl, hm]
    rw [if_neg (by simp), if_pos (by simp)]
  refine ⟨by rw [hrun], ?_, ?_⟩
  · rw [hrun] at hd
    simp only [mem_dirs_mkdirP, mem_dirs_addFileP] at hd
    tauto
  · rw [hrun]
    have hout : outputDir ∈ (mkdirP (addFileP (mkdirP (mkdirP w outputDir)
        (outputDir ++ "/.tmp"))
        (outputDir ++ "/.tmp" ++ "/" ++ sanitize_filename paperId ++ ".pdf"))
        (outputDir ++ "/.tmp" ++ "/mineru_output")).dirs := by
      simp only [mem_dirs_mkdirP, mem_dirs_addFileP]
      tauto
    have htmp : outputDir ++ "/.tmp" ∈ (mkdirP (addFileP (mkdirP (mkdirP w outputDir)
        (outputDir ++ "/.tmp"))
        (outputDir ++ "/.tmp" ++ "/" ++ sanitize_filename paperId ++ ".pdf"))
        (outputDir ++ "/.tmp" ++ "/mineru_output")).dirs := by
      simp only [mem_dirs_mkdirP, mem_dirs_addFileP]
      tauto
    have hmo : outputDir ++ "/.tmp" ++ "/mineru_output" ∈
        (mkdirP (addFileP (mkdirP (mkdirP w outputDir) (outputDir ++ "/.tmp"))
          (outputDir ++ "/.tmp" ++ "/" ++ sanitize_filename paperId ++ ".pdf"))
          (outputDir ++ "/.tmp" ++ "/mineru_output")).dirs := by
      simp only [mem_dirs_mkdirP, mem_dirs_addFileP]
      tauto
    have hpdf : outputDir ++ "/.tmp" ++ "/" ++ sanitize_filename paperId ++ ".pdf" ∈
        (mkdirP (addFileP (mkdirP (mkdirP w outputDir) (outputDir ++ "/.tmp"))
          (outputDir ++ "/.tmp" ++ "/" ++ sanitize_filename paperId ++ ".pdf"))
          (outputDir ++ "/.tmp" ++ "/mineru_output")).files := by
      rw [files_mkdirP]
      exact mem_files_addFileP_self _ _
    simp only [process_arxiv_paper, hp, hid, hdl, hm]
    rw [mkdirP_of_mem hout, mkdirP_of_mem htmp, addFileP_of_mem hpdf,
      mkdirP_of_mem hmo, if_neg (by simp), if_pos (by simp)]

/-- Witness for C9 at a concrete run: tool missing, valid reference, fresh
world. -/
theorem missing_tool_fails_cleanly_witness :
    (process_arxiv_paper ⟨true, false, true, "", [], true, true⟩ ⟨[], []⟩
        "https://arxiv.org/abs/2412.15289" "output").1 = false ∧
      ("output" ∈ (⟨[], []⟩ : PWorld).dirs ∨ "output" = "output" ∨
        "output" = "output" ++ "/.tmp" ∨
        "output" = "output" ++ "/.tmp" ++ "/mineru_output") ∧
      process_arxiv_paper ⟨true, false, true, "", [], true, true⟩
        ((process_arxiv_paper ⟨true, false, true, "", [], true, true⟩ ⟨[], []⟩
          "https://arxiv.org/abs/2412.15289" "output").2)
        "https://arxiv.org/abs/2412.15289" "output" =
      process_arxiv_paper ⟨true, false, true, "", [], true, true⟩ ⟨[], []⟩
        "https://arxiv.org/abs/2412.15289" "output" :=
  missing_tool_fails_cleanly ⟨true, false, true, "", [], true, true⟩ ⟨[], []⟩
    "https://arxiv.org/abs/2412.15289" "output" "https://arxiv.org/pdf/2412.15289.pdf"
    "2412.15289" "output" (by decide) (by decide) rfl rfl (by decide)

end PaperAnalyzer
